import Mathlib

/-!
# Verification of the web-app-boilerplate-server authentication core

Shallow embedding of the `user` package (token issuance, validation,
rotation, secret tokens and permission resolution) translated from the
Go source, together with theorems settling the frozen claims.

Conventions of the embedding:
* Go `time.Time` values that the core only ever compares with `Before`
  are modelled as `Int` Unix seconds; `a.Before(b)` becomes `a < b`.
* Go multi-value returns `(T, error)` become `Option`-shaped results; a
  Go `error` channel is modelled as `Option String` where `none` is the
  nil error and `some msg` a non-nil error.
* External library primitives (the JWT signature check, AES-GCM, base64
  and JSON framing) are not code of this repository; they are modelled
  abstractly by structures carrying exactly their documented contracts,
  and instantiated with small executable schemes for the witnesses.
-/

namespace WebApp

/-! ## Data model (src/user/model.go) -/

/-- `User` from model.go (fields the core reads). -/
structure User where
  id : Nat
  email : String
  password : String
  admin : Bool
  secretKey : String
  verified : Bool
  loggedOutAt : Option Int
deriving Repr, DecidableEq

/-- `Login` from model.go: persisted session record for a refresh token. -/
structure Login where
  id : Nat
  userID : Nat
  uuid : String
  expiresAt : Int
deriving Repr, DecidableEq

/-- `Permission` from model.go (fields the resolver reads). -/
structure Permission where
  id : Nat
  public : Bool
  key : String
deriving Repr, DecidableEq

/-- Process-wide configuration read once at startup (user.go init):
signing keys and expiration durations (here in seconds). -/
structure Config where
  accessKey : String
  refreshKey : String
  accessExp : Int
  refreshExp : Int
deriving Repr, DecidableEq

/-! ## JWT claims and tokens

The jwt-go library stores claims as `map[string]interface{}` decoded
from JSON; a claim value is one of the JSON shapes below.  The numbers
this application ever writes are integral, so `num` carries an `Int`
(Go would see it as a `float64`). -/

/-- A JSON-decoded claim value as jwt-go's `MapClaims` holds it. -/
inductive ClaimVal where
  | num (n : Int)
  | str (s : String)
  | jbool (b : Bool)
  | jarr
  | jobj
  | jnull
deriving Repr, DecidableEq

/-- A signed JWT: its claim map, the key it was signed with and whether
its signing method is in the HMAC family.  `jwt.Parse` with a keyfunc
returning key `k` succeeds exactly when the method is HMAC and the
signature verifies under `k`, i.e. the token was signed with `k`. -/
structure SignedJWT where
  claims : List (String × ClaimVal)
  key : String
  algHMAC : Bool
deriving Repr, DecidableEq

/-- Go map lookup `claims[key]` on the claim map. -/
def lookupClaim (claims : List (String × ClaimVal)) (key : String) :
    Option ClaimVal :=
  (claims.find? (fun kv => kv.1 == key)).map (fun kv => kv.2)

/-- Model of `jwt.Parse` with a keyfunc that rejects non-HMAC methods
and returns `key`: yields the claim map iff the token is HMAC-signed
with that key. -/
def jwtParse (tok : SignedJWT) (key : String) :
    Option (List (String × ClaimVal)) :=
  if tok.algHMAC && tok.key == key then some tok.claims else none

/-- Model of Go `strconv.Atoi`: optional sign followed by one or more
decimal digits (64-bit overflow is out of scope for this embedding). -/
def goAtoi (s : String) : Option Int :=
  match s.data with
  | [] => none
  | c :: rest =>
    let signed : Bool × List Char :=
      if c = '-' then (true, rest)
      else if c = '+' then (false, rest)
      else (false, c :: rest)
    match signed with
    | (neg, digits) =>
      if digits.isEmpty then none
      else if digits.all Char.isDigit then
        let v : Nat := digits.foldl (fun a c => a * 10 + (c.toNat - 48)) 0
        some (if neg then -(v : Int) else (v : Int))
      else none

/-- `jwtParseIntFromClaims` (middleware.go): type-switch on the claim
value, accepting a native number or an `Atoi`-parseable string. -/
def jwtParseIntFromClaims (claims : List (String × ClaimVal))
    (key : String) : Option Int :=
  match lookupClaim claims key with
  | some (.str s) => goAtoi s
  | some (.num n) => some n
  | _ => none

/-- Go `uint(v)` conversion of the parsed `int` claim. -/
def uintOf (i : Int) : Nat := (i % (2 : Int) ^ 64).toNat

/-- Metadata embedded in an access or refresh token
(`jwtAccessMetadata` / `jwtRefreshMetadata`, middleware.go). -/
structure JWTMetadata where
  authUUID : String
  userID : Nat
  createdAt : Int
  expiresAt : Int
deriving Repr, DecidableEq

/-- Shared claim-extraction logic of `jwtGetAccessMetadata` and
`jwtGetRefreshMetadata` after the parse step. -/
def jwtExtractMetadata (claims : List (String × ClaimVal)) :
    Option JWTMetadata :=
  match lookupClaim claims "auth_uuid" with
  | some (.str authUUID) =>
    match jwtParseIntFromClaims claims "user_id" with
    | none => none
    | some userID =>
      match jwtParseIntFromClaims claims "created_at" with
      | none => none
      | some createdAt =>
        match jwtParseIntFromClaims claims "expires_at" with
        | none => none
        | some expiresAt =>
          some ⟨authUUID, uintOf userID, createdAt, expiresAt⟩
  | _ => none

/-- `jwtGetAccessMetadata` (middleware.go): parse under the access key,
then extract typed claims. -/
def jwtGetAccessMetadata (cfg : Config) (tok : SignedJWT) :
    Option JWTMetadata :=
  match jwtParse tok cfg.accessKey with
  | none => none
  | some claims => jwtExtractMetadata claims

/-- `jwtGetRefreshMetadata` (middleware.go): parse under the refresh
key, then extract typed claims. -/
def jwtGetRefreshMetadata (cfg : Config) (tok : SignedJWT) :
    Option JWTMetadata :=
  match jwtParse tok cfg.refreshKey with
  | none => none
  | some claims => jwtExtractMetadata claims

/-! ## Stores

`GetUserByID` is modelled as a lookup function `Nat → Option User`
(`none` is gorm's record-not-found error); the `Login` table is a list
of rows, looked up by uuid with `First` semantics. -/

/-- `GetLoginByUUID` (repository.go): first login row whose uuid
matches. -/
def getLoginByUUID (db : List Login) (uuid : String) : Option Login :=
  db.find? (fun l => l.uuid == uuid)

/-- `DeleteLogin` (repository.go): gorm deletes by primary key. -/
def deleteLogin (db : List Login) (item : Login) : List Login :=
  db.filter (fun l => l.id != item.id)

/-! ## Validation (src/user/middleware.go) -/

/-- The second disjunct of the rejection test in `jwtAccessTokenValid`:
`u.LoggedOutAt != nil && metadata.createdAt.Before(*u.LoggedOutAt)`. -/
def createdBeforeLogout (loggedOutAt : Option Int) (createdAt : Int) : Bool :=
  match loggedOutAt with
  | some t => createdAt < t
  | none => false

/-- `jwtAccessTokenValid`: extract metadata, load the user, then reject
if the signed expiry has passed or the token was issued before the
user's logged-out-at stamp.  Returns the Go error (`none` = valid). -/
def jwtAccessTokenValid (cfg : Config) (userDb : Nat → Option User)
    (tok : SignedJWT) (now : Int) : Option String :=
  match jwtGetAccessMetadata cfg tok with
  | none => some "failed to read JWT metadata"
  | some m =>
    match userDb m.userID with
    | none => some "record not found"
    | some u =>
      if m.expiresAt < now ∨
          createdBeforeLogout u.loggedOutAt m.createdAt then
        some "access token expired"
      else
        none

/-- `JWTValidateRefreshToken`: extract metadata, load the login row by
correlation uuid, reject if either the signed expiry or the persisted
expiry has passed; otherwise return the login. -/
def jwtValidateRefreshToken (cfg : Config) (loginDb : List Login)
    (tok : SignedJWT) (now : Int) : Option Login :=
  match jwtGetRefreshMetadata cfg tok with
  | none => none
  | some m =>
    match getLoginByUUID loginDb m.authUUID with
    | none => none
    | some login =>
      if m.expiresAt < now ∨ login.expiresAt < now then none
      else some login

/-- Go `strings.Split` on a one-character separator, on the character
list: splitting the empty string yields one empty part, and every
occurrence of the separator ends a part. -/
def splitChar (sep : Char) : List Char → List (List Char)
  | [] => [[]]
  | c :: rest =>
    match splitChar sep rest with
    | [] => [[]]
    | g :: gs => if c = sep then [] :: g :: gs else (c :: g) :: gs

/-- Go `strings.Split(s, sep)` for a one-character `sep`. -/
def goSplit (s : String) (sep : Char) : List String :=
  (splitChar sep s.data).map (fun l => ⟨l⟩)

/-- `getAccessToken` (middleware.go): split the Authorization header on
the space character; the token is the second part iff there are exactly
two parts, otherwise empty. -/
def getAccessToken (authHeader : String) : String :=
  match goSplit authHeader ' ' with
  | [_, t] => t
  | _ => ""

/-- Structural well-formedness jwt-go requires of a compact token
string before any verification: exactly three dot-separated segments.
The empty string is not well-formed, so `jwt.Parse` fails on it. -/
def jwtStringWellFormed (s : String) : Bool :=
  (goSplit s '.').length == 3

/-! ## Issuance (src/user/user.go CreateAuth)

Randomness (the fresh auth uuid), the clock, the id gorm assigns to the
inserted row, and the success of the two external effects (HMAC signing
and the store insert) are passed in as parameters. -/

/-- Result of `CreateAuth`: the two returned token strings (`none`
models Go's empty string `""`), the returned error, and the login table
after the call. -/
structure CreateAuthResult where
  accessToken : Option SignedJWT
  refreshToken : Option SignedJWT
  err : Option String
  db : List Login
deriving Repr, DecidableEq

/-- `CreateAuth` (user.go): build and sign the access and refresh
tokens carrying {auth_uuid, user_id, created_at, expires_at}, then
persist one `Login` row; on any failure return empty tokens and the
error (with no insert on signing failure, and the failed store state on
save failure — gorm leaves the table unchanged). -/
def createAuth (cfg : Config) (u : User) (authUUID : String)
    (newId : Nat) (now : Int) (db : List Login)
    (signAccessOk signRefreshOk saveOk : Bool) : CreateAuthResult :=
  let accessJWT : SignedJWT :=
    ⟨[("auth_uuid", .str authUUID), ("user_id", .num u.id),
      ("created_at", .num now), ("expires_at", .num (now + cfg.accessExp))],
     cfg.accessKey, true⟩
  if !signAccessOk then ⟨none, none, some "signing failed", db⟩
  else
    let refreshExpiration := now + cfg.refreshExp
    let refreshJWT : SignedJWT :=
      ⟨[("auth_uuid", .str authUUID), ("user_id", .num u.id),
        ("created_at", .num now), ("expires_at", .num refreshExpiration)],
       cfg.refreshKey, true⟩
    if !signRefreshOk then ⟨none, none, some "signing failed", db⟩
    else
      if !saveOk then ⟨none, none, some "save failed", db⟩
      else
        ⟨some accessJWT, some refreshJWT, none,
         db ++ [⟨newId, u.id, authUUID, refreshExpiration⟩]⟩

/-- The logout handler's stamp (delivery/http.go): set the user's
logged-out-at to the current time. -/
def stampLoggedOut (u : User) (t : Int) : User :=
  { u with loggedOutAt := some t }

/-! ## Secret tokens (src/user/user.go GenerateSecretToken / ParseSecretToken)

Bytes are `List Nat`.  The AEAD (Go `cipher.NewGCM` over AES), the
base64 framings and the byte/string conversions are external library
primitives; each is modelled by a structure carrying its documented
contract.  The transport types of the two base64+JSON framings are kept
abstract (`T` for the outer envelope, `S` for the inner base64 blob):
the core never inspects those strings, only round-trips them. -/

/-- `aes.NewCipher`: succeeds exactly on 16-, 24- or 32-byte keys. -/
def newCipher (key : List Nat) : Option Unit :=
  if key.length = 16 ∨ key.length = 24 ∨ key.length = 32 then some ()
  else none

/-- Contract of an AEAD as Go's `cipher.AEAD` documents it: a nonce
size, `Seal`, and `Open` which inverts `Seal` on authentic input. -/
structure AEAD where
  nonceSize : Nat
  Seal : List Nat → List Nat → List Nat → List Nat
  Open : List Nat → List Nat → List Nat → Option (List Nat)
  Open_Seal : ∀ key nonce plain,
    Open key nonce (Seal key nonce plain) = some plain

/-- Conversion between Go strings and their bytes (`[]byte(s)` /
`string(b)`), abstract up to the round-trip law. -/
structure StrBytes where
  toB : String → List Nat
  ofB : List Nat → String
  of_to : ∀ s, ofB (toB s) = s

/-- The inner payload framing: `base64.URLEncoding` over the sealed
bytes, with its decode-of-encode law. -/
structure PayloadCodec (S : Type) where
  enc : List Nat → S
  dec : S → Option (List Nat)
  dec_enc : ∀ bs, dec (enc bs) = some bs

/-- The JSON object `{UserID, Payload}` marshalled inside the outer
envelope. -/
structure TokenData (S : Type) where
  userID : Nat
  payload : S
deriving Repr, DecidableEq

/-- The outer envelope framing: `json.Marshal` then
`base64.StdEncoding`, with its decode-of-encode law. -/
structure EnvelopeCodec (T S : Type) where
  enc : TokenData S → T
  dec : T → Option (TokenData S)
  dec_enc : ∀ td, dec (enc td) = some td

/-- `GenerateSecretToken` (user.go): cipher from the user's secret key,
seal the payload with a fresh `nonce` (the output is nonce‖ciphertext),
base64-URL-encode it, and pack `{UserID, Payload}` into the base64
envelope.  The fresh random nonce is a parameter. -/
def generateSecretToken {T S : Type} (E : EnvelopeCodec T S)
    (P : PayloadCodec S) (A : AEAD) (SB : StrBytes)
    (u : User) (nonce : List Nat) (payload : String) : Option T :=
  let key := SB.toB u.secretKey
  match newCipher key with
  | none => none
  | some _ =>
    let sealed := nonce ++ A.Seal key nonce (SB.toB payload)
    some (E.enc ⟨u.id, P.enc sealed⟩)

/-- `ParseSecretToken` (user.go) as a triple
(user, payload, error) mirroring the Go returns branch by branch.
Note the short-blob branch: the Go code there is `return nil, "", err`
where `err` is still nil from the successful `cipher.NewGCM` call, so
the model returns `(none, "", none)` — no user, no payload, nil error. -/
def parseSecretToken {T S : Type} (E : EnvelopeCodec T S)
    (P : PayloadCodec S) (A : AEAD) (SB : StrBytes)
    (userDb : Nat → Option User) (token : T) :
    Option User × String × Option String :=
  match E.dec token with
  | none => (none, "", some "illegal base64 data")
  | some td =>
    match userDb td.userID with
    | none => (none, "", some "record not found")
    | some u =>
      match P.dec td.payload with
      | none => (none, "", some "illegal base64 data")
      | some encryptData =>
        let key := SB.toB u.secretKey
        match newCipher key with
        | none => (none, "", some "invalid key size")
        | some _ =>
          if encryptData.length < A.nonceSize then
            (none, "", none)
          else
            let nonce := encryptData.take A.nonceSize
            let cipherText := encryptData.drop A.nonceSize
            match A.Open key nonce cipherText with
            | none => (none, "", some "message authentication failed")
            | some payloadBytes => (some u, SB.ofB payloadBytes, none)

/-! ## Permission resolution (src/user/user.go GetUserPermissions)

The store queries are modelled by their loaded row lists: `catalog` is
the full permission table (`ListPermission`), `directRows` the
permissions joined to the user (`ListPermissionByUser` before its
public filter), and `roleRows` the per-role permission lists in role
load order (`ListPermissionByRole` before its public filter). -/

/-- The optional public filter the three List* queries apply
(repository.go): keep rows whose `Public` matches, or all when the
filter is nil. -/
def filterPublicOpt (public : Option Bool) (ps : List Permission) :
    List Permission :=
  match public with
  | none => ps
  | some b => ps.filter (fun p => p.public == b)

/-- One step of the role-permission accumulation loop in
`GetUserPermissions`: append the permission unless its key was already
added, tracking added keys. -/
def addPermStep (acc : List Permission × List String) (p : Permission) :
    List Permission × List String :=
  if p.key ∈ acc.2 then acc else (acc.1 ++ [p], acc.2 ++ [p.key])

/-- `GetUserPermissions` (user.go): admins get the whole (filtered)
catalog; otherwise start from the user's direct permissions, record
their keys as added, then walk each role's permissions in order,
appending those whose key has not been added yet. -/
def getUserPermissions (u : User) (catalog : List Permission)
    (directRows : List Permission) (roleRows : List (List Permission))
    (public : Option Bool) : List Permission :=
  if u.admin then filterPublicOpt public catalog
  else
    let results := filterPublicOpt public directRows
    let added := results.map (fun p => p.key)
    (roleRows.foldl
      (fun acc rolePerms =>
        (filterPublicOpt public rolePerms).foldl addPermStep acc)
      (results, added)).1

/-- Modelled from the spec: first-seen-order deduplication by
permission key. -/
def dedupByKey (ps : List Permission) : List Permission :=
  (ps.foldl addPermStep ([], [])).1

/-- Modelled from the spec (§4.4): the reference definition of
`EffectivePermissions` — the full (optionally filtered) catalog for an
admin; otherwise the filtered direct grants followed by each role's
filtered permissions in load order, deduplicated by key in first-seen
order. -/
def refEffectivePermissions (u : User) (catalog : List Permission)
    (directRows : List Permission) (roleRows : List (List Permission))
    (public : Option Bool) : List Permission :=
  if u.admin then filterPublicOpt public catalog
  else
    dedupByKey (filterPublicOpt public directRows ++
      (roleRows.map (filterPublicOpt public)).flatten)

/-! ## Executable instances of the external primitives

Small concrete schemes satisfying the documented contracts, used to
evaluate the theorems on concrete inputs. -/

/-- Checksum used by the stand-in AEAD's integrity tag. -/
def tagOf (key nonce plain : List Nat) : Nat :=
  key.sum + nonce.sum + plain.sum + plain.length

/-- Executable stand-in AEAD: 12-byte nonces, tag prepended to the
plaintext, opening checks the tag. -/
def toyAEAD : AEAD where
  nonceSize := 12
  Seal := fun key nonce plain => tagOf key nonce plain :: plain
  Open := fun key nonce c =>
    match c with
    | [] => none
    | t :: rest => if t = tagOf key nonce rest then some rest else none
  Open_Seal := by intro key nonce plain; simp

/-- Bytes of a string as its character codes. -/
def charStrBytes : StrBytes where
  toB := fun s => s.data.map Char.toNat
  ofB := fun bs => ⟨bs.map Char.ofNat⟩
  of_to := by
    intro s
    cases s with
    | mk data =>
      simp [List.map_map, Function.comp_def, Char.ofNat_toNat]

/-- Payload framing instance whose transport is the optional byte list
itself. -/
def optPayloadCodec : PayloadCodec (Option (List Nat)) where
  enc := some
  dec := id
  dec_enc := fun _ => rfl

/-- Envelope framing instance whose transport is the optional token
data itself. -/
def optEnvelopeCodec (S : Type) : EnvelopeCodec (Option (TokenData S)) S where
  enc := some
  dec := id
  dec_enc := fun _ => rfl

/-! ## Claim theorems -/

/-- C9: for every claim map and key, `jwtParseIntFromClaims` succeeds
exactly when the claim value is a native JSON number or a string that
`strconv.Atoi` parses (optional sign then decimal digits), and fails on
every other shape — missing, boolean, object, array, null, or a
non-numeric string. -/
theorem c9_parse_int_from_claims (claims : List (String × ClaimVal))
    (key : String) :
    (jwtParseIntFromClaims claims key).isSome ↔
      ((∃ n, lookupClaim claims key = some (.num n)) ∨
       (∃ s, lookupClaim claims key = some (.str s) ∧ (goAtoi s).isSome)) := by
  cases h : lookupClaim claims key with
  | none => simp [jwtParseIntFromClaims, h]
  | some v => cases v <;> simp [jwtParseIntFromClaims, h]

/-- C9 witness: evaluation at concrete claim maps, covering a native
number, a numeric string, and a boolean. -/
theorem c9_parse_int_from_claims_witness :
    ((jwtParseIntFromClaims [("user_id", .num 7)] "user_id").isSome ↔
      ((∃ n, lookupClaim [("user_id", ClaimVal.num 7)] "user_id"
          = some (.num n)) ∨
       (∃ s, lookupClaim [("user_id", ClaimVal.num 7)] "user_id"
          = some (.str s) ∧ (goAtoi s).isSome))) ∧
    jwtParseIntFromClaims [("user_id", .str "42")] "user_id" = some 42 ∧
    jwtParseIntFromClaims [("user_id", .jbool true)] "user_id" = none := by
  refine ⟨c9_parse_int_from_claims [("user_id", .num 7)] "user_id", by decide, by decide⟩

/-- C10: the request gate takes the second space-separated part of the
Authorization header whatever the first part (scheme) is; whenever the
header does not split into exactly two parts — including the absent
header, read as the empty string — the extracted token is empty, and
the empty string is not a structurally well-formed JWT, so access-token
validation fails. -/
theorem c10_get_access_token :
    (∀ (h : String) (scheme tok : String),
      goSplit h ' ' = [scheme, tok] → getAccessToken h = tok) ∧
    (∀ h : String, (goSplit h ' ').length ≠ 2 →
      getAccessToken h = "" ∧
        jwtStringWellFormed (getAccessToken h) = false) := by
  constructor
  · intro h scheme tok hsplit
    simp [getAccessToken, hsplit]
  · intro h hlen
    have htok : getAccessToken h = "" := by
      unfold getAccessToken
      cases hs : goSplit h ' ' with
      | nil => rfl
      | cons a rest =>
        cases rest with
        | nil => rfl
        | cons b rest2 =>
          cases rest2 with
          | nil => exact absurd (by simp [hs]) hlen
          | cons c rest3 => rfl
    refine ⟨htok, ?_⟩
    rw [htok]
    decide

/-- C10 witness: a non-Bearer scheme is accepted, and a three-part
header (double space) as well as the absent header yield the empty
token, which is not a well-formed JWT. -/
theorem c10_get_access_token_witness :
    getAccessToken "Basic abc.def.ghi" = "abc.def.ghi" ∧
    (getAccessToken "Bearer  tok" = "" ∧
      jwtStringWellFormed (getAccessToken "Bearer  tok") = false) ∧
    (getAccessToken "" = "" ∧
      jwtStringWellFormed (getAccessToken "") = false) := by
  refine ⟨c10_get_access_token.1 "Basic abc.def.ghi" "Basic" "abc.def.ghi" (by decide),
    c10_get_access_token.2 "Bearer  tok" (by decide),
    c10_get_access_token.2 "" (by decide)⟩

/-- `uint(int(n))` is the identity on ids below `2^64`. -/
theorem uintOf_ofNat (n : Nat) (h : n < 2 ^ 64) : uintOf (n : Int) = n := by
  unfold uintOf
  have h2 : (2 : Int) ^ 64 = 18446744073709551616 := by norm_num
  rw [h2]
  omega

/-- Metadata read back from an access token `CreateAuth` signs. -/
theorem issuedAccessMetadata (cfg : Config) (u : User) (uuid : String)
    (now : Int) :
    jwtGetAccessMetadata cfg
      ⟨[("auth_uuid", .str uuid), ("user_id", .num u.id),
        ("created_at", .num now),
        ("expires_at", .num (now + cfg.accessExp))], cfg.accessKey, true⟩
      = some ⟨uuid, uintOf u.id, now, now + cfg.accessExp⟩ := by
  simp [jwtGetAccessMetadata, jwtParse]
  rfl

/-- Metadata read back from a refresh token `CreateAuth` signs. -/
theorem issuedRefreshMetadata (cfg : Config) (u : User) (uuid : String)
    (now : Int) :
    jwtGetRefreshMetadata cfg
      ⟨[("auth_uuid", .str uuid), ("user_id", .num u.id),
        ("created_at", .num now),
        ("expires_at", .num (now + cfg.refreshExp))], cfg.refreshKey, true⟩
      = some ⟨uuid, uintOf u.id, now, now + cfg.refreshExp⟩ := by
  simp [jwtGetRefreshMetadata, jwtParse]
  rfl

/-- Characterization of `jwtValidateRefreshToken`, shared by several
claim proofs. -/
theorem validateRefreshIffAux (cfg : Config) (db : List Login)
    (tok : SignedJWT) (now : Int) (login : Login) :
    jwtValidateRefreshToken cfg db tok now = some login ↔
      ∃ m, jwtGetRefreshMetadata cfg tok = some m ∧
        getLoginByUUID db m.authUUID = some login ∧
        now ≤ m.expiresAt ∧ now ≤ login.expiresAt := by
  unfold jwtValidateRefreshToken
  cases hm : jwtGetRefreshMetadata cfg tok with
  | none => simp
  | some m =>
    cases hl : getLoginByUUID db m.authUUID with
    | none => simp [hl]
    | some l =>
      by_cases hexp : m.expiresAt < now ∨ l.expiresAt < now
      · simp only [hl, if_pos hexp]
        constructor
        · intro h; exact absurd h (by simp)
        · rintro ⟨m2, hm2, hl2, h3, h4⟩
          cases hm2
          rw [hl] at hl2
          cases hl2
          omega
      · simp only [hl, if_neg hexp]
        push_neg at hexp
        constructor
        · intro h
          injection h with h
          subst h
          exact ⟨m, rfl, hl, hexp.1, hexp.2⟩
        · rintro ⟨m2, hm2, hl2, _, _⟩
          cases hm2
          rw [hl] at hl2
          exact hl2

/-- C5: `JWTValidateRefreshToken` returns a session exactly when the
token parses (HMAC signature under the refresh key verifies and the
claims are well shaped), a login row exists for the token's correlation
uuid, and neither the signed expiry nor the row's persisted expiry has
passed. -/
theorem c5_validate_refresh_iff (cfg : Config) (db : List Login)
    (tok : SignedJWT) (now : Int) (login : Login) :
    jwtValidateRefreshToken cfg db tok now = some login ↔
      ∃ m, jwtGetRefreshMetadata cfg tok = some m ∧
        getLoginByUUID db m.authUUID = some login ∧
        now ≤ m.expiresAt ∧ now ≤ login.expiresAt :=
  validateRefreshIffAux cfg db tok now login

/-- C5 witness: a concrete valid refresh token against a one-row login
table validates, and the characterization agrees. -/
theorem c5_validate_refresh_iff_witness :
    jwtValidateRefreshToken ⟨"ak", "rk", 3600, 7200⟩
        [⟨1, 7, "uuid-1", 100⟩]
        ⟨[("auth_uuid", .str "uuid-1"), ("user_id", .num 7),
          ("created_at", .num 0), ("expires_at", .num 100)], "rk", true⟩
        50 = some ⟨1, 7, "uuid-1", 100⟩ := by
  have h := c5_validate_refresh_iff ⟨"ak", "rk", 3600, 7200⟩
    [⟨1, 7, "uuid-1", 100⟩]
    ⟨[("auth_uuid", .str "uuid-1"), ("user_id", .num 7),
      ("created_at", .num 0), ("expires_at", .num 100)], "rk", true⟩
    50 ⟨1, 7, "uuid-1", 100⟩
  exact h.2 ⟨⟨"uuid-1", 7, 0, 100⟩, by decide, by decide, by decide, by decide⟩

/-- C6: `CreateAuth` is all-or-nothing.  If the `SaveLogin` insert
fails — even with both tokens already signed — the call returns empty
tokens, a non-nil error, and leaves the login table unchanged; every
successful call appends exactly one login row whose uuid equals the
`auth_uuid` claim carried by both returned tokens. -/
theorem c6_create_auth_all_or_nothing (cfg : Config) (u : User)
    (authUUID : String) (newId : Nat) (now : Int) (db : List Login) :
    ((createAuth cfg u authUUID newId now db true true false).accessToken
        = none ∧
      (createAuth cfg u authUUID newId now db true true false).refreshToken
        = none ∧
      (createAuth cfg u authUUID newId now db true true false).err.isSome ∧
      (createAuth cfg u authUUID newId now db true true false).db = db) ∧
    (∃ atok rtok,
      (createAuth cfg u authUUID newId now db true true true).accessToken
        = some atok ∧
      (createAuth cfg u authUUID newId now db true true true).refreshToken
        = some rtok ∧
      (createAuth cfg u authUUID newId now db true true true).err = none ∧
      (createAuth cfg u authUUID newId now db true true true).db
        = db ++ [⟨newId, u.id, authUUID, now + cfg.refreshExp⟩] ∧
      lookupClaim atok.claims "auth_uuid" = some (.str authUUID) ∧
      lookupClaim rtok.claims "auth_uuid" = some (.str authUUID)) := by
  refine ⟨⟨rfl, rfl, rfl, rfl⟩, ?_⟩
  refine ⟨_, _, rfl, rfl, rfl, rfl, ?_, ?_⟩ <;>
    simp [createAuth, lookupClaim]

/-- C4: invalidation after logout is keyed solely on the user's
logged-out-at stamp.  First part: every access token — whatever session
uuid it carries — whose created-at claim precedes the stamp fails
validation.  Second part: an access token issued by `CreateAuth` for
the stamped user at a strictly later time validates. -/
theorem c4_logout_invalidation :
    (∀ (cfg : Config) (userDb : Nat → Option User) (tok : SignedJWT)
        (now : Int) (m : JWTMetadata) (u : User) (t : Int),
      jwtGetAccessMetadata cfg tok = some m →
      userDb m.userID = some u →
      u.loggedOutAt = some t →
      m.createdAt < t →
      (jwtAccessTokenValid cfg userDb tok now).isSome) ∧
    (∀ (cfg : Config) (userDb : Nat → Option User) (u : User) (t : Int)
        (uuid : String) (newId : Nat) (db : List Login) (now2 : Int),
      userDb u.id = some (stampLoggedOut u t) →
      u.id < 2 ^ 64 →
      0 ≤ cfg.accessExp →
      t < now2 →
      ∃ atok, (createAuth cfg (stampLoggedOut u t) uuid newId now2 db
          true true true).accessToken = some atok ∧
        jwtAccessTokenValid cfg userDb atok now2 = none) := by
  constructor
  · intro cfg userDb tok now m u t hm hu hlo hlt
    simp [jwtAccessTokenValid, hm, hu, createdBeforeLogout, hlo, hlt]
  · intro cfg userDb u t uuid newId db now2 hu hid hexp hlt
    refine ⟨_, rfl, ?_⟩
    have hm := issuedAccessMetadata cfg (stampLoggedOut u t) uuid now2
    have huint : uintOf ((stampLoggedOut u t).id : Int)
        = u.id := uintOf_ofNat u.id hid
    have h1 : ¬ (now2 + cfg.accessExp < now2) := by omega
    have h2 : ¬ (now2 < t) := by omega
    simp only [stampLoggedOut] at hm huint
    simp [jwtAccessTokenValid, hm, huint, hu, stampLoggedOut,
      createdBeforeLogout, h1, h2]

/-- C4 witness: user 7 logs out at time 100; a token created at 50
fails, and a token issued at 200 validates. -/
theorem c4_logout_invalidation_witness :
    (jwtAccessTokenValid ⟨"ak", "rk", 3600, 7200⟩
      (fun i => if i = 7 then
        some ⟨7, "e", "p", false, "k", true, some 100⟩ else none)
      ⟨[("auth_uuid", .str "uuid-0"), ("user_id", .num 7),
        ("created_at", .num 50), ("expires_at", .num 5000)],
       "ak", true⟩ 200).isSome ∧
    (∃ atok, (createAuth ⟨"ak", "rk", 3600, 7200⟩
        (stampLoggedOut ⟨7, "e", "p", false, "k", true, none⟩ 100)
        "uuid-1" 2 200 [] true true true).accessToken = some atok ∧
      jwtAccessTokenValid ⟨"ak", "rk", 3600, 7200⟩
        (fun i => if i = 7 then
          some (stampLoggedOut ⟨7, "e", "p", false, "k", true, none⟩ 100)
          else none) atok 200 = none) := by
  constructor
  · exact c4_logout_invalidation.1 ⟨"ak", "rk", 3600, 7200⟩
      (fun i => if i = 7 then
        some ⟨7, "e", "p", false, "k", true, some 100⟩ else none)
      ⟨[("auth_uuid", .str "uuid-0"), ("user_id", .num 7),
        ("created_at", .num 50), ("expires_at", .num 5000)], "ak", true⟩
      200 ⟨"uuid-0", 7, 50, 5000⟩
      ⟨7, "e", "p", false, "k", true, some 100⟩ 100
      (by decide) (by decide) (by decide) (by decide)
  · exact c4_logout_invalidation.2 ⟨"ak", "rk", 3600, 7200⟩
      (fun i => if i = 7 then
        some (stampLoggedOut ⟨7, "e", "p", false, "k", true, none⟩ 100)
        else none)
      ⟨7, "e", "p", false, "k", true, none⟩ 100 "uuid-1" 2 [] 200
      (by decide) (by decide) (by decide) (by decide)

/-- C7: for a stored identity and a positive access lifetime,
`CreateAuth` immediately followed by access validation succeeds, and
the token's metadata resolves to that identity's id. -/
theorem c7_issue_then_validate_access (cfg : Config)
    (userDb : Nat → Option User) (u : User) (uuid : String)
    (newId : Nat) (now : Int) (db : List Login) :
    userDb u.id = some u →
    u.id < 2 ^ 64 →
    0 < cfg.accessExp →
    (∀ t, u.loggedOutAt = some t → t ≤ now) →
    ∃ atok m,
      (createAuth cfg u uuid newId now db true true true).accessToken
        = some atok ∧
      jwtAccessTokenValid cfg userDb atok now = none ∧
      jwtGetAccessMetadata cfg atok = some m ∧
      m.userID = u.id := by
  intro hu hid hexp hlo
  have hm := issuedAccessMetadata cfg u uuid now
  have huint : uintOf (u.id : Int) = u.id := uintOf_ofNat u.id hid
  have hcb : createdBeforeLogout u.loggedOutAt now = false := by
    cases hlo2 : u.loggedOutAt with
    | none => rfl
    | some t =>
      have := hlo t hlo2
      simp only [createdBeforeLogout, decide_eq_false_iff_not]
      omega
  have h1 : ¬ (now + cfg.accessExp < now) := by omega
  refine ⟨_, ⟨uuid, uintOf u.id, now, now + cfg.accessExp⟩, rfl, ?_, hm, huint⟩
  simp [jwtAccessTokenValid, hm, huint, hu, hcb, h1]

/-- C7 witness: issuance for stored user 7 at time 0 validates at
time 0 and resolves to id 7. -/
theorem c7_issue_then_validate_access_witness :
    ∃ atok m,
      (createAuth ⟨"ak", "rk", 3600, 7200⟩
        ⟨7, "e", "p", false, "k", true, none⟩ "uuid-1" 2 0 []
        true true true).accessToken = some atok ∧
      jwtAccessTokenValid ⟨"ak", "rk", 3600, 7200⟩
        (fun i => if i = 7 then
          some ⟨7, "e", "p", false, "k", true, none⟩ else none) atok 0
        = none ∧
      jwtGetAccessMetadata ⟨"ak", "rk", 3600, 7200⟩ atok = some m ∧
      m.userID = 7 :=
  c7_issue_then_validate_access ⟨"ak", "rk", 3600, 7200⟩
    (fun i => if i = 7 then
      some ⟨7, "e", "p", false, "k", true, none⟩ else none)
    ⟨7, "e", "p", false, "k", true, none⟩ "uuid-1" 2 0 []
    (by decide) (by decide) (by decide) (by intro t h; cases h)

/-- C3: decode of encode.  For any framing and AEAD satisfying their
contracts, a stored identity whose secret key has AES size, and any
payload, `ParseSecretToken` applied to the output of
`GenerateSecretToken` returns that identity and exactly the original
payload, with nil error. -/
theorem c3_secret_token_roundtrip {T S : Type} (E : EnvelopeCodec T S)
    (P : PayloadCodec S) (A : AEAD) (SB : StrBytes)
    (userDb : Nat → Option User) (u : User) (nonce : List Nat)
    (payload : String) :
    userDb u.id = some u →
    nonce.length = A.nonceSize →
    ((SB.toB u.secretKey).length = 16 ∨ (SB.toB u.secretKey).length = 24 ∨
      (SB.toB u.secretKey).length = 32) →
    ∃ tok, generateSecretToken E P A SB u nonce payload = some tok ∧
      parseSecretToken E P A SB userDb tok = (some u, payload, none) := by
  intro hu hn hk
  have hc : newCipher (SB.toB u.secretKey) = some () := by
    unfold newCipher
    rw [if_pos hk]
  refine ⟨E.enc ⟨u.id, P.enc (nonce ++
      A.Seal (SB.toB u.secretKey) nonce (SB.toB payload))⟩, ?_, ?_⟩
  · simp only [generateSecretToken, hc]
  · unfold parseSecretToken
    simp only [E.dec_enc, hu, P.dec_enc, hc]
    have hlen : ¬ ((nonce ++
        A.Seal (SB.toB u.secretKey) nonce (SB.toB payload)).length
          < A.nonceSize) := by
      rw [List.length_append, hn]
      omega
    rw [if_neg hlen]
    have ht : (nonce ++
        A.Seal (SB.toB u.secretKey) nonce (SB.toB payload)).take
          A.nonceSize = nonce := by
      rw [← hn]
      exact List.take_left nonce _
    have hd : (nonce ++
        A.Seal (SB.toB u.secretKey) nonce (SB.toB payload)).drop
          A.nonceSize
        = A.Seal (SB.toB u.secretKey) nonce (SB.toB payload) := by
      rw [← hn]
      exact List.drop_left nonce _
    rw [ht, hd, A.Open_Seal]
    simp [SB.of_to]

/-- Identity 7 with a 16-byte secret key, in a one-user store. -/
def sampleUser : User :=
  ⟨7, "user@example.com", "pw", false, "0123456789abcdef", true, none⟩

/-- The one-user identity store holding `sampleUser`. -/
def sampleUserDb : Nat → Option User :=
  fun i => if i = 7 then some sampleUser else none

/-- C3 witness: the round trip evaluated with the executable framing
and AEAD instances on user 7 and payload `user@example.com`. -/
theorem c3_secret_token_roundtrip_witness :
    ∃ tok, generateSecretToken (optEnvelopeCodec (Option (List Nat)))
        optPayloadCodec toyAEAD charStrBytes sampleUser
        (List.replicate 12 0) "user@example.com" = some tok ∧
      parseSecretToken (optEnvelopeCodec (Option (List Nat)))
        optPayloadCodec toyAEAD charStrBytes sampleUserDb tok
        = (some sampleUser, "user@example.com", none) :=
  c3_secret_token_roundtrip (optEnvelopeCodec (Option (List Nat)))
    optPayloadCodec toyAEAD charStrBytes sampleUserDb sampleUser
    (List.replicate 12 0) "user@example.com"
    (by decide) (by decide) (by decide)

/-- C2 (code-bug exhibit): on a token whose envelope names the stored
user 7 but whose sealed blob decodes to zero bytes — shorter than the
12-byte nonce — `ParseSecretToken` returns no identity and no payload
but also a **nil** error: the Go short-blob branch returns the stale
nil `err` from the successful `cipher.NewGCM` call, so callers that
check only the error dereference a nil user. -/
theorem c2_short_blob_nil_error :
    parseSecretToken (optEnvelopeCodec (Option (List Nat)))
      optPayloadCodec toyAEAD charStrBytes sampleUserDb
      (some ⟨7, some []⟩)
      = (none, "", none) := by
  decide

/-- Folding `addPermStep` over permissions whose keys are fresh for the
accumulator and pairwise distinct appends them all. -/
theorem foldl_addPermStep_fresh (l : List Permission) :
    ∀ (r : List Permission) (a : List String),
    (∀ p ∈ l, p.key ∉ a) →
    (l.map (fun p => p.key)).Nodup →
    l.foldl addPermStep (r, a)
      = (r ++ l, a ++ l.map (fun p => p.key)) := by
  induction l with
  | nil =>
    intro r a _ _
    simp
  | cons p l ih =>
    intro r a hfresh hnodup
    have hp : p.key ∉ a := hfresh p (by simp)
    have hstep : addPermStep (r, a) p = (r ++ [p], a ++ [p.key]) := by
      simp [addPermStep, hp]
    rw [List.foldl_cons, hstep]
    rw [List.map_cons, List.nodup_cons] at hnodup
    rw [ih (r ++ [p]) (a ++ [p.key]) ?_ hnodup.2]
    · simp
    · intro q hq
      simp only [List.mem_append, List.mem_singleton]
      push_neg
      refine ⟨hfresh q (by simp [hq]), ?_⟩
      intro hqe
      exact hnodup.1 (hqe ▸ List.mem_map_of_mem (fun p => p.key) hq)

/-- C8 counterexample: a non-admin identity with the same permission
granted twice directly.  `GetUserPermissions` emits the key twice —
duplicates inside the direct grants are never deduplicated — while the
spec's reference resolver emits each distinct key at most once. -/
theorem c8_duplicate_direct_grant_counterexample :
    getUserPermissions ⟨2, "e", "p", false, "k", true, none⟩ []
        [⟨1, true, "x"⟩, ⟨1, true, "x"⟩] [] none
      = [⟨1, true, "x"⟩, ⟨1, true, "x"⟩] ∧
    refEffectivePermissions ⟨2, "e", "p", false, "k", true, none⟩ []
        [⟨1, true, "x"⟩, ⟨1, true, "x"⟩] [] none
      = [⟨1, true, "x"⟩] ∧
    getUserPermissions ⟨2, "e", "p", false, "k", true, none⟩ []
        [⟨1, true, "x"⟩, ⟨1, true, "x"⟩] [] none
      ≠ refEffectivePermissions ⟨2, "e", "p", false, "k", true, none⟩ []
        [⟨1, true, "x"⟩, ⟨1, true, "x"⟩] [] none := by
  refine ⟨by decide, by decide, by decide⟩

/-- C8 (amended): provided the filtered direct grants carry pairwise
distinct keys, `GetUserPermissions` equals the spec's reference
resolver: full (filtered) catalog for admins; otherwise direct grants
first, then each role's permissions in load order, with the public
filter applied to every permission considered and each distinct key
emitted at most once in first-seen order. -/
theorem c8_effective_permissions_amended (u : User)
    (catalog directRows : List Permission)
    (roleRows : List (List Permission)) (pub : Option Bool) :
    ((filterPublicOpt pub directRows).map (fun p => p.key)).Nodup →
    getUserPermissions u catalog directRows roleRows pub
      = refEffectivePermissions u catalog directRows roleRows pub := by
  intro hnd
  unfold getUserPermissions refEffectivePermissions
  cases hadm : u.admin with
  | true => simp
  | false =>
    simp only [Bool.false_eq_true, if_false]
    unfold dedupByKey
    rw [List.foldl_append,
      foldl_addPermStep_fresh (filterPublicOpt pub directRows) [] []
        (by simp) hnd]
    simp only [List.nil_append]
    rw [List.foldl_flatten, List.foldl_map]

/-- C8 witness: the amended equality evaluated on the spec's concrete
scenario — direct permission x plus a role granting y and z resolves
to exactly x, y, z in first-seen order. -/
theorem c8_effective_permissions_amended_witness :
    getUserPermissions ⟨2, "e", "p", false, "k", true, none⟩ []
        [⟨1, true, "x"⟩] [[⟨2, true, "y"⟩, ⟨3, false, "z"⟩]] none
      = refEffectivePermissions ⟨2, "e", "p", false, "k", true, none⟩ []
        [⟨1, true, "x"⟩] [[⟨2, true, "y"⟩, ⟨3, false, "z"⟩]] none ∧
    getUserPermissions ⟨2, "e", "p", false, "k", true, none⟩ []
        [⟨1, true, "x"⟩] [[⟨2, true, "y"⟩, ⟨3, false, "z"⟩]] none
      = [⟨1, true, "x"⟩, ⟨2, true, "y"⟩, ⟨3, false, "z"⟩] :=
  ⟨c8_effective_permissions_amended ⟨2, "e", "p", false, "k", true, none⟩
    [] [⟨1, true, "x"⟩] [[⟨2, true, "y"⟩, ⟨3, false, "z"⟩]] none
    (by decide), by decide⟩

/-! ## The refresh handler's session-store trajectory
(delivery/http.go `refresh`)

After validating the old refresh token the handler calls `CreateAuth`,
which inserts the new session row, and only then calls `DeleteLogin` on
the old row; a failure of the delete is merely logged. -/

/-- Session store after `CreateAuth` inserted the new session and
before `DeleteLogin` removed the old one. -/
def refreshStoreAfterInsert (cfg : Config) (u : User) (newUUID : String)
    (newId : Nat) (now : Int) (db : List Login) : List Login :=
  (createAuth cfg u newUUID newId now db true true true).db

/-- Session store after the subsequent `DeleteLogin` of the old
session succeeded. -/
def refreshStoreAfterDelete (cfg : Config) (u : User) (oldLogin : Login)
    (newUUID : String) (newId : Nat) (now : Int) (db : List Login) :
    List Login :=
  deleteLogin (refreshStoreAfterInsert cfg u newUUID newId now db) oldLogin

/-- C1 counterexample: in the refresh handler's intermediate state —
after the new session is inserted, before the old one is deleted —
both the old and the new refresh token validate, refuting the claimed
atomicity (no intermediate state in which both validate). -/
theorem c1_intermediate_both_validate_counterexample :
    jwtValidateRefreshToken ⟨"ak", "rk", 3600, 7200⟩
      (refreshStoreAfterInsert ⟨"ak", "rk", 3600, 7200⟩ sampleUser
        "uuid-new" 2 0 [⟨1, 7, "uuid-old", 100⟩])
      ⟨[("auth_uuid", .str "uuid-old"), ("user_id", .num 7),
        ("created_at", .num 0), ("expires_at", .num 100)], "rk", true⟩ 0
      = some ⟨1, 7, "uuid-old", 100⟩ ∧
    (createAuth ⟨"ak", "rk", 3600, 7200⟩ sampleUser "uuid-new" 2 0
      [⟨1, 7, "uuid-old", 100⟩] true true true).refreshToken
      = some ⟨[("auth_uuid", .str "uuid-new"), ("user_id", .num 7),
        ("created_at", .num 0), ("expires_at", .num 7200)], "rk", true⟩ ∧
    jwtValidateRefreshToken ⟨"ak", "rk", 3600, 7200⟩
      (refreshStoreAfterInsert ⟨"ak", "rk", 3600, 7200⟩ sampleUser
        "uuid-new" 2 0 [⟨1, 7, "uuid-old", 100⟩])
      ⟨[("auth_uuid", .str "uuid-new"), ("user_id", .num 7),
        ("created_at", .num 0), ("expires_at", .num 7200)], "rk", true⟩ 0
      = some ⟨2, 7, "uuid-new", 7200⟩ := by
  refine ⟨by decide, by decide, by decide⟩

/-- The freshly inserted row is found by its uuid when no earlier row
carries that uuid. -/
theorem getLoginByUUID_append_fresh (db : List Login) (newLogin : Login)
    (h : ∀ l ∈ db, l.uuid ≠ newLogin.uuid) :
    getLoginByUUID (db ++ [newLogin]) newLogin.uuid = some newLogin := by
  unfold getLoginByUUID
  rw [List.find?_append]
  have hnone : db.find? (fun l => l.uuid == newLogin.uuid) = none :=
    List.find?_eq_none.mpr (fun x hx => by simp [h x hx])
  simp [hnone]

/-- C1 (amended): rotation is sequential, not atomic.  Starting from a
store in which the old token validates (with the session-per-uuid
uniqueness invariant, a fresh uuid and a fresh row id for the new
session), (i) in the intermediate state after the insert the old token
still validates, (ii) the returned refresh token validates against the
new session in both the intermediate and the final state, and (iii)
once the delete has succeeded the old token no longer validates — its
correlation uuid resolves to no login row. -/
theorem c1_rotation_amended (cfg : Config) (db : List Login) (u : User)
    (oldLogin : Login) (oldTok : SignedJWT) (newUUID : String)
    (newId : Nat) (now : Int) :
    jwtValidateRefreshToken cfg db oldTok now = some oldLogin →
    (∀ l ∈ db, l.uuid = oldLogin.uuid → l = oldLogin) →
    (∀ l ∈ db, l.uuid ≠ newUUID) →
    newId ≠ oldLogin.id →
    0 ≤ cfg.refreshExp →
    (jwtValidateRefreshToken cfg
        (refreshStoreAfterInsert cfg u newUUID newId now db) oldTok now
      = some oldLogin) ∧
    (∃ rtok,
      (createAuth cfg u newUUID newId now db true true true).refreshToken
        = some rtok ∧
      jwtValidateRefreshToken cfg
        (refreshStoreAfterInsert cfg u newUUID newId now db) rtok now
        = some ⟨newId, u.id, newUUID, now + cfg.refreshExp⟩ ∧
      jwtValidateRefreshToken cfg
        (refreshStoreAfterDelete cfg u oldLogin newUUID newId now db)
        rtok now
        = some ⟨newId, u.id, newUUID, now + cfg.refreshExp⟩) ∧
    jwtValidateRefreshToken cfg
      (refreshStoreAfterDelete cfg u oldLogin newUUID newId now db)
      oldTok now
      = none := by
  intro hold huniq hfresh hnewid hrexp
  obtain ⟨m, hm, hfind, hexp1, hexp2⟩ :=
    (validateRefreshIffAux cfg db oldTok now oldLogin).mp hold
  have hmem : oldLogin ∈ db := List.mem_of_find?_eq_some hfind
  have huuid : oldLogin.uuid = m.authUUID := by
    have := List.find?_some hfind
    simpa using this
  set newLogin : Login := ⟨newId, u.id, newUUID, now + cfg.refreshExp⟩
    with hnewLogin
  have hmid : refreshStoreAfterInsert cfg u newUUID newId now db
      = db ++ [newLogin] := rfl
  have hfin : refreshStoreAfterDelete cfg u oldLogin newUUID newId now db
      = db.filter (fun l => l.id != oldLogin.id) ++ [newLogin] := by
    unfold refreshStoreAfterDelete deleteLogin
    rw [hmid, List.filter_append]
    simp [hnewLogin, hnewid]
  have hnewuuid_ne : newUUID ≠ m.authUUID := by
    intro he
    exact hfresh oldLogin hmem (huuid.trans he.symm)
  refine ⟨?_, ⟨_, rfl, ?_, ?_⟩, ?_⟩
  · -- old token still validates in the intermediate state
    refine (validateRefreshIffAux _ _ _ _ _).mpr ⟨m, hm, ?_, hexp1, hexp2⟩
    rw [hmid]
    unfold getLoginByUUID at hfind ⊢
    rw [List.find?_append, hfind]
    rfl
  · -- new token validates in the intermediate state
    refine (validateRefreshIffAux _ _ _ _ _).mpr
      ⟨⟨newUUID, uintOf u.id, now, now + cfg.refreshExp⟩,
        issuedRefreshMetadata cfg u newUUID now, ?_,
        by simp only [hnewLogin]; omega, by simp only [hnewLogin]; omega⟩
    rw [hmid]
    exact getLoginByUUID_append_fresh db newLogin hfresh
  · -- new token validates in the final state
    refine (validateRefreshIffAux _ _ _ _ _).mpr
      ⟨⟨newUUID, uintOf u.id, now, now + cfg.refreshExp⟩,
        issuedRefreshMetadata cfg u newUUID now, ?_,
        by simp only [hnewLogin]; omega, by simp only [hnewLogin]; omega⟩
    rw [hfin]
    refine getLoginByUUID_append_fresh _ newLogin ?_
    intro l hl
    exact hfresh l (List.mem_of_mem_filter hl)
  · -- old token no longer validates once the delete succeeded
    have hnone : getLoginByUUID
        (refreshStoreAfterDelete cfg u oldLogin newUUID newId now db)
        m.authUUID = none := by
      rw [hfin]
      unfold getLoginByUUID
      refine List.find?_eq_none.mpr ?_
      intro x hx
      rcases List.mem_append.mp hx with hx1 | hx2
      · have hxdb := List.mem_of_mem_filter hx1
        have hxid := List.of_mem_filter hx1
        simp only [bne_iff_ne, ne_eq] at hxid
        intro hbeq
        have hxu : x.uuid = m.authUUID := by simpa using hbeq
        exact hxid (congrArg Login.id
          (huniq x hxdb (hxu.trans huuid.symm)))
      · have hx2e : x = newLogin := by simpa using hx2
        subst hx2e
        simp [hnewLogin, hnewuuid_ne]
    unfold jwtValidateRefreshToken
    simp only [hm, hnone]

/-- C1 witness: the amended rotation theorem evaluated on a one-row
store with concrete old and new sessions. -/
theorem c1_rotation_amended_witness :
    (jwtValidateRefreshToken ⟨"ak", "rk", 3600, 7200⟩
        (refreshStoreAfterInsert ⟨"ak", "rk", 3600, 7200⟩ sampleUser
          "uuid-new2" 2 0 [⟨1, 7, "uuid-old2", 100⟩])
        ⟨[("auth_uuid", .str "uuid-old2"), ("user_id", .num 7),
          ("created_at", .num 0), ("expires_at", .num 100)], "rk", true⟩ 0
      = some ⟨1, 7, "uuid-old2", 100⟩) ∧
    (∃ rtok,
      (createAuth ⟨"ak", "rk", 3600, 7200⟩ sampleUser "uuid-new2" 2 0
        [⟨1, 7, "uuid-old2", 100⟩] true true true).refreshToken
        = some rtok ∧
      jwtValidateRefreshToken ⟨"ak", "rk", 3600, 7200⟩
        (refreshStoreAfterInsert ⟨"ak", "rk", 3600, 7200⟩ sampleUser
          "uuid-new2" 2 0 [⟨1, 7, "uuid-old2", 100⟩]) rtok 0
        = some ⟨2, 7, "uuid-new2", 7200⟩ ∧
      jwtValidateRefreshToken ⟨"ak", "rk", 3600, 7200⟩
        (refreshStoreAfterDelete ⟨"ak", "rk", 3600, 7200⟩ sampleUser
          ⟨1, 7, "uuid-old2", 100⟩ "uuid-new2" 2 0
          [⟨1, 7, "uuid-old2", 100⟩]) rtok 0
        = some ⟨2, 7, "uuid-new2", 7200⟩) ∧
    jwtValidateRefreshToken ⟨"ak", "rk", 3600, 7200⟩
      (refreshStoreAfterDelete ⟨"ak", "rk", 3600, 7200⟩ sampleUser
        ⟨1, 7, "uuid-old2", 100⟩ "uuid-new2" 2 0
        [⟨1, 7, "uuid-old2", 100⟩])
      ⟨[("auth_uuid", .str "uuid-old2"), ("user_id", .num 7),
        ("created_at", .num 0), ("expires_at", .num 100)], "rk", true⟩ 0
      = none :=
  c1_rotation_amended ⟨"ak", "rk", 3600, 7200⟩ [⟨1, 7, "uuid-old2", 100⟩]
    sampleUser ⟨1, 7, "uuid-old2", 100⟩
    ⟨[("auth_uuid", .str "uuid-old2"), ("user_id", .num 7),
      ("created_at", .num 0), ("expires_at", .num 100)], "rk", true⟩
    "uuid-new2" 2 0
    (by decide) (by decide) (by decide) (by decide) (by decide)

end WebApp
